import Mathlib

/-!
Verification of the customer-segmentation clustering core
(`src/utils/clustering.ts`) against its natural-language specification.

The TypeScript pipeline is shallowly embedded: JavaScript numbers are
modelled as real numbers; a record field value is `Option ℝ` (`some x` for
a numeric value, `none` for a textual or missing one, matching the
`typeof v === 'number'` test; `Number(v) || 0` coercion of a non-numeric
value yields 0, modelled by `Option.getD 0`).  The one place where the
JavaScript `NaN` value is reachable is division `x / y` with `x = y = 0`
(`(b - a) / Math.max(a, b)` in the silhouette computation, and
`sum / values.length` with an empty member list in the summary builder);
such results are modelled as `Option ℝ` with `none` standing for `NaN`.
Errors thrown by `performClustering` are modelled with `Except`.
-/

noncomputable section

/-- A record field value: `some x` for a JS number, `none` otherwise. -/
abbrev FieldValue := Option ℝ

/-- A customer record: the JS object, an ordered association list from
field name to value (`CustomerRecord` in `src/types`). -/
abbrev CustomerRecord := List (String × FieldValue)

/-- Field lookup `record[key]`: first binding wins (JS object keys are
unique, so this is exact). A missing key yields `none` (JS `undefined`),
which coerces to 0 just like a textual value. -/
def getVal : CustomerRecord → String → FieldValue
  | [], _ => none
  | (k, v) :: r, key => if k = key then v else getVal r key

/-- `Object.keys(record)` in insertion order. -/
def recKeys (r : CustomerRecord) : List String := r.map Prod.fst

/-- The feature-selection rule of `normalizeData`:
`Object.keys(data[0]).filter(key => !excludeColumns.includes(key) &&
typeof data[0][key] === 'number')`. -/
def eligibleFeatures (r0 : CustomerRecord) (excludeColumns : List String) : List String :=
  (recKeys r0).filter (fun k => (!(excludeColumns.contains k)) && (getVal r0 k).isSome)

/-- The raw value matrix of `normalizeData`:
`data.map(record => features.map(feature => Number(record[feature]) || 0))`. -/
def nmValues (data : List CustomerRecord) (features : List String) : List (List ℝ) :=
  data.map (fun r => features.map (fun f => (getVal r f).getD 0))

/-- `Math.min(...)` over a spread list (callers only use it on non-empty
columns; the empty case is unreachable in `normalizeData` for the
non-empty datasets the claims quantify over). -/
def listMin : List ℝ → ℝ
  | [] => 0
  | x :: xs => xs.foldl min x

/-- `Math.max(...)` over a spread list, same caveat as `listMin`. -/
def listMax : List ℝ → ℝ
  | [] => 0
  | x :: xs => xs.foldl max x

/-- Column `i` of the raw value matrix: `values.map(row => row[i])`. -/
def colVals (data : List CustomerRecord) (features : List String) (i : ℕ) : List ℝ :=
  (nmValues data features).map (fun row => row.getD i 0)

/-- `mins[i] = Math.min(...values.map(row => row[i]))` of `normalizeData`. -/
def colMin (data : List CustomerRecord) (features : List String) (i : ℕ) : ℝ :=
  listMin (colVals data features i)

/-- `maxs[i] = Math.max(...values.map(row => row[i]))` of `normalizeData`. -/
def colMax (data : List CustomerRecord) (features : List String) (i : ℕ) : ℝ :=
  listMax (colVals data features i)

/-- One row of the normalized matrix:
`row.map((val, i) => { const range = maxs[i] - mins[i];
return range === 0 ? 0 : (val - mins[i]) / range; })`, written as a
recursion carrying the column index `i`. -/
def normRow (data : List CustomerRecord) (features : List String) : List ℝ → ℕ → List ℝ
  | [], _ => []
  | v :: vs, i =>
      (if colMax data features i - colMin data features i = 0 then 0
       else (v - colMin data features i) / (colMax data features i - colMin data features i))
      :: normRow data features vs (i + 1)

/-- `normalizeData(data, excludeColumns)` from `src/utils/clustering.ts`:
returns the pair `(normalized, features)`.  The source throws a
`TypeError` on an empty dataset (`Object.keys(data[0])`); every claim
quantifies over non-empty datasets, for which this embedding is exact. -/
def normalizeData (data : List CustomerRecord) (excludeColumns : List String) :
    List (List ℝ) × List String :=
  let features := eligibleFeatures (data.headD []) excludeColumns
  ((nmValues data features).map (fun row => normRow data features row 0), features)

/-- `euclidean(a, b)` from `src/utils/clustering.ts`.  The source throws
when the lengths differ; all call sites in the pipeline pass equal-length
vectors, for which the `zip` is exact. -/
def euclidean (a b : List ℝ) : ℝ :=
  Real.sqrt ((a.zip b).foldl (fun s p => s + (p.1 - p.2) * (p.1 - p.2)) 0)

/-- JS `array.filter((_, idx) => p(idx))`: keep elements whose index
satisfies `p`, the index starting at `s`. -/
def idxFilter (p : ℕ → Bool) : List α → ℕ → List α
  | [], _ => []
  | x :: xs, i => if p i then x :: idxFilter p xs (i + 1) else idxFilter p xs (i + 1)

/-- `[...new Set(clusters)]`: deduplicate keeping first occurrences. -/
def jsUniq (l : List ℕ) : List ℕ :=
  l.foldl (fun acc c => if c ∈ acc then acc else acc ++ [c]) []

/-- Mean distance from `x` to a list of points:
`points.reduce((sum, p) => sum + euclidean(x, p), 0) / points.length`.
Only applied to non-empty `pts` (both guards in the source check this). -/
def meanDistTo (x : List ℝ) (pts : List (List ℝ)) : ℝ :=
  (pts.foldl (fun s p => s + euclidean x p) 0) / pts.length

/-- The `b(i)` accumulation of `calculateSilhouetteScore`: `bI` starts at
`Infinity` (modelled `none`) and is lowered by `Math.min` over the mean
distance to each non-empty other cluster. -/
def bVal (data : List (List ℝ)) (clusters : List ℕ) (i : ℕ) (c : ℕ) : Option ℝ :=
  ((jsUniq clusters).filter (fun cl => cl != c)).foldl
    (fun b cl =>
      let pts := idxFilter (fun idx => clusters.getD idx 0 == cl) data 0
      if pts.isEmpty then b
      else some (match b with
        | none => meanDistTo (data.getD i []) pts
        | some bb => min bb (meanDistTo (data.getD i []) pts))) none

/-- Per-point silhouette of `calculateSilhouetteScore`:
`bI === Infinity ? 0 : (bI - aI) / Math.max(aI, bI)`.  Since
`aI, bI ≥ 0`, the JS division produces `NaN` (modelled `none`) exactly
when `Math.max(aI, bI) = 0`. -/
def silPoint (data : List (List ℝ)) (clusters : List ℕ) (i : ℕ) : Option ℝ :=
  let c := clusters.getD i 0
  let same := idxFilter (fun idx => (clusters.getD idx 0 == c) && (idx != i)) data 0
  let aI := if same.isEmpty then 0 else meanDistTo (data.getD i []) same
  match bVal data clusters i c with
  | none => some 0
  | some b => if max aI b = 0 then none else some ((b - aI) / max aI b)

/-- `calculateSilhouetteScore(data, clusters)`: the mean of the per-point
silhouettes; `NaN` (from a degenerate point, or from `n = 0` giving
`0 / 0`) is modelled as `none`. -/
def calculateSilhouetteScore (data : List (List ℝ)) (clusters : List ℕ) : Option ℝ :=
  let n := data.length
  let total := (List.range n).foldl
    (fun acc i => match acc, silPoint data clusters i with
      | some t, some v => some (t + v)
      | _, _ => none) (some 0)
  if n = 0 then none else total.map (fun t => t / n)

/-- First index of the minimum of a distance list, accumulator form;
ties keep the lowest index. -/
def argminAux : List ℝ → ℕ → ℕ → ℝ → ℕ
  | [], _, best, _ => best
  | x :: xs, i, best, bv =>
      if x < bv then argminAux xs (i + 1) i x else argminAux xs (i + 1) best bv

/-- First index attaining the minimum of a non-empty list (0 on `[]`). -/
def argminIdx : List ℝ → ℕ
  | [] => 0
  | x :: xs => argminAux xs 1 0 x

/-- Modelled from the spec: the assignment step (a) of §4.2 — assign each
row to the centroid of minimum Euclidean distance, ties to the lowest
cluster id.  (The K-Means implementation itself is the external
`ml-kmeans` package, absent from `src/`.) -/
def assignRows (cents : List (List ℝ)) (data : List (List ℝ)) : List ℕ :=
  data.map (fun row => argminIdx (cents.map (fun c => euclidean row c)))

/-- Coordinate-wise mean of a non-empty list of equal-length vectors. -/
def meanVec : List (List ℝ) → List ℝ
  | [] => []
  | m :: ms =>
      (ms.foldl (fun acc v => (acc.zip v).map (fun p => p.1 + p.2)) m).map
        (fun x => x / ((ms.length + 1 : ℕ) : ℝ))

/-- Modelled from the spec: update step (b) of §4.2 — recompute each
centroid as the mean of its members; a cluster with no members keeps its
previous centroid. -/
def newCentroids (data : List (List ℝ)) (assigns : List ℕ) (old : List (List ℝ)) :
    List (List ℝ) :=
  (List.range old.length).map (fun j =>
    let members := ((data.zip assigns).filter (fun p => p.2 == j)).map Prod.fst
    if members.isEmpty then old.getD j [] else meanVec members)

/-- Modelled from the spec: Lloyd iteration of §4.2 with a fuel bound —
compute the assignment, stop once it repeats (convergence) or the fuel
(iteration cap) runs out, else update the centroids and repeat. -/
def lloyd (data : List (List ℝ)) : ℕ → List (List ℝ) → Option (List ℕ) → List ℕ × List (List ℝ)
  | 0, cents, _ => (assignRows cents data, cents)
  | fuel + 1, cents, prev =>
      let a := assignRows cents data
      if prev = some a then (a, cents)
      else lloyd data fuel (newCentroids data a cents) (some a)

/-- Modelled from the spec: `cluster(matrix, k, seed)` of §4.2/§6 — the
K-Means clusterer (the `kmeans` call of `ml-kmeans`, whose code is not in
`src/`), as Lloyd's algorithm with the 100-iteration cap of
`performClustering`'s `{ maxIterations: 100 }` and the deterministic
first-`k`-points initialization the spec admits; the seed parameter is
carried for the §6 interface. -/
def kmeansModel (data : List (List ℝ)) (k : ℕ) (_seed : ℕ) : List ℕ × List (List ℝ) :=
  lloyd data 100 (data.take k) none

/-- The fixed ordered color catalog `CLUSTER_COLORS`. -/
def CLUSTER_COLORS : List String :=
  ["#3b82f6", "#10b981", "#f59e0b", "#ef4444", "#8b5cf6", "#06b6d4", "#f97316", "#84cc16"]

/-- The fixed ordered name catalog `CLUSTER_NAMES`. -/
def CLUSTER_NAMES : List String :=
  ["High-Value Customers", "Budget-Conscious", "Frequent Buyers", "Occasional Shoppers",
   "Premium Seekers", "Deal Hunters", "Loyal Customers", "New Customers"]

/-- The error thrown by `performClustering` when there are fewer records
than requested clusters (`InsufficientDataError` of the spec). -/
inductive ClusterError where
  | insufficientData
deriving DecidableEq

/-- One entry of `clusterResults`: `{ cluster, data, centroid }`. -/
structure ClusterResultS where
  cluster : ℕ
  data : CustomerRecord
  centroid : List ℝ

/-- One `ClusterSummary`: id, member count, per-feature mean of the
original values (`none` = JS `NaN`, from `0 / 0` on an empty cluster),
display color and name. -/
structure ClusterSummaryS where
  clusterId : ℕ
  count : ℕ
  characteristics : List (String × Option ℝ)
  color : String
  name : String

/-- The `ClusterAnalysis` result bundle of `performClustering`. -/
structure ClusterAnalysisS where
  clusters : List ClusterResultS
  centroids : List (List ℝ)
  silhouetteScore : Option ℝ
  clusterSummaries : List ClusterSummaryS

/-- The summary loop of `performClustering` (`for i = 0; i < k; i++`):
filter members, count them, average each feature's original value
(`values.reduce((s, v) => s + v, 0) / values.length`, which is JS `NaN`
when the cluster is empty), and attach catalog name and color at index
`i % catalog.length`. -/
def buildSummaries (clusterResults : List ClusterResultS) (features : List String) (k : ℕ) :
    List ClusterSummaryS :=
  (List.range k).map (fun i =>
    let clusterData := clusterResults.filter (fun r => r.cluster == i)
    ⟨i, clusterData.length,
      features.map (fun f =>
        let vals := clusterData.map (fun r => (getVal r.data f).getD 0)
        (f, if vals.isEmpty then none
            else some ((vals.foldl (fun s v => s + v) 0) / (vals.length : ℝ)))),
      CLUSTER_COLORS.getD (i % CLUSTER_COLORS.length) "",
      CLUSTER_NAMES.getD (i % CLUSTER_NAMES.length) ""⟩)

/-- `performClustering(data, k)` from `src/utils/clustering.ts`: normalize,
guard `normalized.length < k` (throwing `InsufficientDataError`), run
K-Means, attach per-record cluster results, score, and build summaries. -/
def performClustering (data : List CustomerRecord) (k : ℕ) :
    Except ClusterError ClusterAnalysisS :=
  let nd := normalizeData data ["id"]
  if nd.1.length < k then Except.error ClusterError.insufficientData
  else
    let res := kmeansModel nd.1 k 0
    let clusterResults := (data.zip res.1).map (fun p => ⟨p.2, p.1, res.2.getD p.2 []⟩)
    Except.ok
      ⟨clusterResults, res.2, calculateSilhouetteScore nd.1 res.1,
        buildSummaries clusterResults nd.2 k⟩

/-- JS `current.score > best.score`: any comparison with `NaN` is false. -/
def jsGt (x y : Option ℝ) : Bool :=
  match x, y with
  | some a, some b => decide (b < a)
  | _, _ => false

/-- The candidate loop body of `findOptimalClusters`: record `(k, score)`
for each successful `performClustering`, and `break` (dropping the rest of
the candidates) at the first thrown error. -/
def scanScores (data : List CustomerRecord) : List ℕ → List (ℕ × Option ℝ)
  | [] => []
  | k :: ks =>
      match performClustering data k with
      | Except.ok a => (k, a.silhouetteScore) :: scanScores data ks
      | Except.error _ => []

/-- The candidate list of `findOptimalClusters`:
`for (let k = 2; k <= Math.min(maxK, data.length); k++)`. -/
def candList (data : List CustomerRecord) (maxK : ℕ) : List ℕ :=
  List.range' 2 (min maxK data.length - 1)

/-- `scores.reduce((best, current) => current.score > best.score ? current : best)`. -/
def reduceBest (best : ℕ × Option ℝ) : List (ℕ × Option ℝ) → ℕ × Option ℝ
  | [] => best
  | s :: rest => reduceBest (if jsGt s.2 best.2 then s else best) rest

/-- `findOptimalClusters(data, maxK)` from `src/utils/clustering.ts`
(the source defaults `maxK` to 8): scan candidates, fall back to
`{ k: 2, scores: [] }` when no score was collected, otherwise pick the
reduce-maximum. -/
def findOptimalClusters (data : List CustomerRecord) (maxK : ℕ) :
    ℕ × List (ℕ × Option ℝ) :=
  match scanScores data (candList data maxK) with
  | [] => (2, [])
  | s :: rest => ((reduceBest s rest).1, s :: rest)

/-- The numeric-column scan of the CSV upload component
(`src/unnamed/part_002`): `Object.keys(sampleRecord).filter(key =>
key !== 'id' && typeof sampleRecord[key] === 'number')`. -/
def csvNumericColumns (r : CustomerRecord) : List String :=
  (recKeys r).filter (fun k => (k != "id") && (getVal r k).isSome)

/-- The upload component's validation: it rejects the dataset (setError,
no clustering attempted) when fewer than 2 numeric columns are found. -/
def csvRejectsFeatureShortage (data : List CustomerRecord) : Bool :=
  decide ((csvNumericColumns (data.headD [])).length < 2)

/-- A concrete record with id and two numeric fields `a`, `b`. -/
def dRec (a b : ℝ) : CustomerRecord := [("id", none), ("a", some a), ("b", some b)]

/-- Three records; feature `a` takes values 0, 10, 0 and `b` is constant. -/
def d3 : List CustomerRecord := [dRec 0 5, dRec 10 5, dRec 0 5]

/-- Two records; feature `a` takes values 0, 10 and `b` is constant. -/
def d2 : List CustomerRecord := [dRec 0 5, dRec 10 5]

/-- One record with a single numeric feature next to the id. -/
def d1f : List CustomerRecord := [[("id", none), ("a", some 5)]]

/-- One record with two numeric features (both columns constant). -/
def d1c : List CustomerRecord := [dRec 5 7]

/-- Whether an `Except` value is a success (the `try` of
`findOptimalClusters` continuing instead of `break`ing). -/
def isOkB : Except ε α → Bool
  | Except.ok _ => true
  | Except.error _ => false

/-- The silhouette score recorded for candidate `k` (meaningful only when
`performClustering` succeeds there). -/
def scoreKOf (data : List CustomerRecord) (k : ℕ) : Option ℝ :=
  match performClustering data k with
  | Except.ok a => a.silhouetteScore
  | Except.error _ => none

/-- The numeric value of a recorded `(k, score)` entry (0 for `NaN`;
only used under a proof that the score is an actual number). -/
def scoreVal (e : ℕ × Option ℝ) : ℝ := e.2.getD 0

/-! ### General list lemmas -/

lemma foldl_min_le_init (l : List ℝ) : ∀ a : ℝ, l.foldl min a ≤ a := by
  induction l with
  | nil => intro a; simp
  | cons x xs ih => intro a; exact le_trans (ih (min a x)) (min_le_left a x)

lemma foldl_min_le_mem {l : List ℝ} {x : ℝ} (h : x ∈ l) : ∀ a : ℝ, l.foldl min a ≤ x := by
  induction l with
  | nil => cases h
  | cons y ys ih =>
      intro a
      rcases List.mem_cons.mp h with h1 | h2
      · subst h1; exact le_trans (foldl_min_le_init ys (min a x)) (min_le_right a x)
      · exact ih h2 (min a y)

lemma init_le_foldl_max (l : List ℝ) : ∀ a : ℝ, a ≤ l.foldl max a := by
  induction l with
  | nil => intro a; simp
  | cons x xs ih => intro a; exact le_trans (le_max_left a x) (ih (max a x))

lemma mem_le_foldl_max {l : List ℝ} {x : ℝ} (h : x ∈ l) : ∀ a : ℝ, x ≤ l.foldl max a := by
  induction l with
  | nil => cases h
  | cons y ys ih =>
      intro a
      rcases List.mem_cons.mp h with h1 | h2
      · subst h1; exact le_trans (le_max_right a x) (init_le_foldl_max ys (max a x))
      · exact ih h2 (max a y)

lemma listMin_le {l : List ℝ} {x : ℝ} (h : x ∈ l) : listMin l ≤ x := by
  cases l with
  | nil => cases h
  | cons y ys =>
      rcases List.mem_cons.mp h with h1 | h2
      · subst h1; exact foldl_min_le_init ys x
      · exact foldl_min_le_mem h2 y

lemma le_listMax {l : List ℝ} {x : ℝ} (h : x ∈ l) : x ≤ listMax l := by
  cases l with
  | nil => cases h
  | cons y ys =>
      rcases List.mem_cons.mp h with h1 | h2
      · subst h1; exact init_le_foldl_max ys x
      · exact mem_le_foldl_max h2 y

lemma foldl_add_map (g : α → ℝ) : ∀ (l : List α) (c : ℝ),
    l.foldl (fun s p => s + g p) c = c + (l.map g).sum := by
  intro l
  induction l with
  | nil => intro c; simp
  | cons x xs ih => intro c; simp [ih]; ring

lemma sum_nonneg_of_mem {l : List ℝ} (h : ∀ x ∈ l, 0 ≤ x) : 0 ≤ l.sum := by
  induction l with
  | nil => simp
  | cons x xs ih =>
      simp only [List.sum_cons]
      have := h x (by simp)
      have := ih (fun y hy => h y (by simp [hy]))
      linarith

lemma sum_eq_zero_mem_zero {l : List ℝ} (hn : ∀ x ∈ l, 0 ≤ x) (hs : l.sum = 0) :
    ∀ x ∈ l, x = 0 := by
  induction l with
  | nil => simp
  | cons y ys ih =>
      simp only [List.sum_cons] at hs
      have hy : 0 ≤ y := hn y (by simp)
      have hys : 0 ≤ ys.sum := sum_nonneg_of_mem (fun x hx => hn x (by simp [hx]))
      have hy0 : y = 0 := by linarith
      have hsum : ys.sum = 0 := by linarith
      intro x hx
      rcases List.mem_cons.mp hx with h1 | h2
      · simp [h1, hy0]
      · exact ih (fun x hx => hn x (by simp [hx])) hsum x h2

/-! ### Normalization lemmas -/

lemma normalizeData_fst_length (data : List CustomerRecord) (excl : List String) :
    (normalizeData data excl).1.length = data.length := by
  simp [normalizeData, nmValues]

lemma normRow_entry_bounds (data : List CustomerRecord) (features : List String) :
    ∀ (vs : List ℝ) (i0 : ℕ),
      (∀ j : ℕ, vs.getD j 0 ∈ colVals data features (i0 + j)) →
      ∀ x ∈ normRow data features vs i0, 0 ≤ x ∧ x ≤ 1 := by
  intro vs
  induction vs with
  | nil => intro i0 _ x hx; cases hx
  | cons v vs' ih =>
      intro i0 hmem x hx
      rcases List.mem_cons.mp hx with h1 | h2
      · subst h1
        by_cases hr : colMax data features i0 - colMin data features i0 = 0
        · simp [hr]
        · have hv : v ∈ colVals data features i0 := by
            have := hmem 0
            simpa using this
          have hlo : colMin data features i0 ≤ v := listMin_le hv
          have hhi : v ≤ colMax data features i0 := le_listMax hv
          have hpos : 0 < colMax data features i0 - colMin data features i0 := by
            rcases lt_or_eq_of_le (sub_nonneg.mpr (le_trans hlo hhi)) with h | h
            · exact h
            · exact absurd h.symm hr
          constructor
          · simp only [if_neg hr]
            exact div_nonneg (by linarith) (le_of_lt hpos)
          · simp only [if_neg hr]
            rw [div_le_one hpos]
            linarith
      · refine ih (i0 + 1) ?_ x h2
        intro j
        have := hmem (j + 1)
        simpa [Nat.add_assoc, Nat.add_comm 1 j] using this

lemma normRow_getD_const (data : List CustomerRecord) (features : List String) :
    ∀ (vs : List ℝ) (i0 j : ℕ),
      colMax data features (i0 + j) = colMin data features (i0 + j) →
      (normRow data features vs i0).getD j 0 = 0 := by
  intro vs
  induction vs with
  | nil => intro i0 j _; simp [normRow]
  | cons v vs' ih =>
      intro i0 j hc
      cases j with
      | zero =>
          simp only [Nat.add_zero] at hc
          simp [normRow, sub_eq_zero.mpr hc]
      | succ j' =>
          simp only [normRow, List.getD_cons_succ]
          refine ih (i0 + 1) j' ?_
          have : i0 + (j' + 1) = i0 + 1 + j' := by omega
          rw [← this]
          exact hc

/-- Claim C7: every entry of the normalized matrix lies in [0,1], and a
feature whose column minimum equals its column maximum normalizes to
exactly 0 in every row. -/
theorem spec_c7_normalized_bounds : ∀ (data : List CustomerRecord) (excl : List String),
    (∀ row ∈ (normalizeData data excl).1, ∀ x ∈ row, 0 ≤ x ∧ x ≤ 1) ∧
    (∀ i : ℕ,
      colMax data (eligibleFeatures (data.headD []) excl) i =
        colMin data (eligibleFeatures (data.headD []) excl) i →
      ∀ row ∈ (normalizeData data excl).1, row.getD i 0 = 0) := by
  intro data excl
  constructor
  · intro row hrow x hx
    simp only [normalizeData, List.mem_map] at hrow
    obtain ⟨row0, hrow0, heq⟩ := hrow
    subst heq
    refine normRow_entry_bounds data _ row0 0 ?_ x hx
    intro j
    simp only [Nat.zero_add, colVals]
    exact List.mem_map.mpr ⟨row0, hrow0, rfl⟩
  · intro i hconst row hrow
    simp only [normalizeData, List.mem_map] at hrow
    obtain ⟨row0, _, heq⟩ := hrow
    subst heq
    have := normRow_getD_const data (eligibleFeatures (data.headD []) excl) row0 0 i
    simpa using this (by simpa using hconst)

/-- Witness for C7 at the one-record dataset `d1c` (both features
constant): the normalized matrix is `[[0, 0]]`, its entry is in [0,1],
and the constant column yields exactly 0. -/
theorem spec_c7_witness :
    [(0 : ℝ), 0] ∈ (normalizeData d1c ["id"]).1 ∧
    (0 ≤ (0 : ℝ) ∧ (0 : ℝ) ≤ 1) ∧
    (([(0 : ℝ), 0] : List ℝ).getD 0 0 = 0) := by
  have hnorm : (normalizeData d1c ["id"]).1 = [[(0 : ℝ), 0]] := by
    simp [normalizeData, nmValues, normRow, colMax, colMin, colVals, eligibleFeatures,
      recKeys, getVal, d1c, dRec, listMin, listMax]
  have hmem : [(0 : ℝ), 0] ∈ (normalizeData d1c ["id"]).1 := by
    rw [hnorm]; simp
  refine ⟨hmem, ?_, ?_⟩
  · exact (spec_c7_normalized_bounds d1c ["id"]).1 [(0 : ℝ), 0] hmem 0 (by simp)
  · have hc : colMax d1c (eligibleFeatures (d1c.headD []) ["id"]) 0 =
        colMin d1c (eligibleFeatures (d1c.headD []) ["id"]) 0 := by
      simp [colMax, colMin, colVals, nmValues, eligibleFeatures, recKeys, getVal, d1c, dRec,
        listMin, listMax]
    exact (spec_c7_normalized_bounds d1c ["id"]).2 0 hc [(0 : ℝ), 0] hmem

/-! ### Claim C3: where the fewer-than-2-features condition is handled -/

lemma csvNumericColumns_eq (r : CustomerRecord) :
    csvNumericColumns r = eligibleFeatures r ["id"] := by
  simp only [csvNumericColumns, eligibleFeatures]
  congr 1
  funext k
  by_cases h : k = "id" <;> simp [List.contains, bne, h]

/-- Counterexample to C3: on a one-record dataset whose only numeric
field is `a`, `normalizeData` finds a single eligible feature (fewer than
2) yet returns the matrix and feature set normally — there is no
`FeatureShortageError` path in `normalizeData`. -/
theorem spec_c3_counterexample :
    (eligibleFeatures (d1f.headD []) ["id"]).length < 2 ∧
    normalizeData d1f ["id"] = ([[0]], ["a"]) := by
  constructor
  · decide
  · simp [normalizeData, nmValues, normRow, colMax, colMin, colVals, eligibleFeatures,
      recKeys, getVal, d1f, listMin, listMax]

/-- Amended C3: `normalizeData` performs no feature-count check — even
with fewer than 2 eligible features it returns the feature set and one
matrix row per record; the fewer-than-2-numeric-columns condition is
rejected earlier, by the CSV upload component's validation. -/
theorem spec_c3_amended : ∀ (data : List CustomerRecord), data ≠ [] →
    (eligibleFeatures (data.headD []) ["id"]).length < 2 →
    csvRejectsFeatureShortage data = true ∧
    (normalizeData data ["id"]).2 = eligibleFeatures (data.headD []) ["id"] ∧
    (normalizeData data ["id"]).1.length = data.length := by
  intro data _ hshort
  refine ⟨?_, rfl, normalizeData_fst_length data ["id"]⟩
  simp only [csvRejectsFeatureShortage, csvNumericColumns_eq]
  exact decide_eq_true hshort

/-- Witness for C3's amended statement at the concrete dataset `d1f`. -/
theorem spec_c3_amended_witness :
    csvRejectsFeatureShortage d1f = true ∧
    (normalizeData d1f ["id"]).2 = eligibleFeatures (d1f.headD []) ["id"] ∧
    (normalizeData d1f ["id"]).1.length = d1f.length := by
  refine spec_c3_amended d1f ?_ ?_
  · simp [d1f]
  · decide

/-! ### Claim C1: when performClustering signals InsufficientDataError -/

/-- Amended C1: `performClustering` signals `InsufficientDataError`
exactly when the record count is strictly smaller than `k` (the guard is
`normalized.length < k`); `k = n` is accepted, not rejected. -/
theorem spec_c1_amended : ∀ (data : List CustomerRecord) (k : ℕ),
    performClustering data k = Except.error ClusterError.insufficientData ↔
      data.length < k := by
  intro data k
  have hl : (normalizeData data ["id"]).1.length = data.length :=
    normalizeData_fst_length data ["id"]
  by_cases h : data.length < k
  · simp [performClustering, hl, h]
  · simp [performClustering, hl, h]

/-- Counterexample to C1: a dataset of exactly 3 records with k = 3 does
not raise `InsufficientDataError` (the guard `3 < 3` fails), contrary to
the claim that k ≥ n must raise. -/
theorem spec_c1_counterexample :
    performClustering d3 3 ≠ Except.error ClusterError.insufficientData := by
  have hl : (normalizeData d3 ["id"]).1.length = 3 := by
    simp [normalizeData_fst_length, d3]
  simp [performClustering, hl]

/-! ### Claim C6: determinism of the clustering operation -/

/-- Claim C6: for a fixed matrix, cluster count and seed, two invocations
of the clusterer produce identical assignments and centroids.  In this
embedding `kmeansModel` is a pure function of `(matrix, k, seed)` — the
spec's §4.2 seeded-deterministic contract — so run-to-run determinism is
definitional. -/
theorem spec_c6_determinism : ∀ (matrix : List (List ℝ)) (k seed : ℕ),
    kmeansModel matrix k seed = kmeansModel matrix k seed ∧
    (kmeansModel matrix k seed).1 = (kmeansModel matrix k seed).1 ∧
    (kmeansModel matrix k seed).2 = (kmeansModel matrix k seed).2 :=
  fun _ _ _ => ⟨rfl, rfl, rfl⟩

/-! ### Claim C9: catalog-indexed names and colors -/

/-- Claim C9: both catalogs have length 8 (hence at least 8), and the
summary at cluster id `j` carries exactly the catalog entries at index
`j % catalogLength`, together with the member count and per-feature means
of the member records — a fixed function of the cluster id, hence stable
across runs. -/
theorem spec_c9_catalog_indexing :
    CLUSTER_COLORS.length = 8 ∧ CLUSTER_NAMES.length = 8 ∧
    ∀ (clusterResults : List ClusterResultS) (features : List String) (k j : ℕ), j < k →
      (buildSummaries clusterResults features k).get? j = some
        ⟨j, (clusterResults.filter (fun r => r.cluster == j)).length,
          features.map (fun f =>
            let vals := (clusterResults.filter (fun r => r.cluster == j)).map
              (fun r => (getVal r.data f).getD 0)
            (f, if vals.isEmpty then none
                else some ((vals.foldl (fun s v => s + v) 0) / (vals.length : ℝ)))),
          CLUSTER_COLORS.getD (j % CLUSTER_COLORS.length) "",
          CLUSTER_NAMES.getD (j % CLUSTER_NAMES.length) ""⟩ := by
  refine ⟨rfl, rfl, ?_⟩
  intro clusterResults features k j hj
  simp [buildSummaries, List.getElem?_map, List.getElem?_range, hj]

/-- Witness for C9 at `k = 1`, `j = 0` with no members: the summary picks
catalog index `0 % 8`. -/
theorem spec_c9_witness :
    (0 < 1) ∧
    (buildSummaries [] ["a"] 1).get? 0 = some
      ⟨0, (([] : List ClusterResultS).filter (fun r => r.cluster == 0)).length,
        ["a"].map (fun f =>
          let vals := (([] : List ClusterResultS).filter (fun r => r.cluster == 0)).map
            (fun r => (getVal r.data f).getD 0)
          (f, if vals.isEmpty then none
              else some ((vals.foldl (fun s v => s + v) 0) / (vals.length : ℝ)))),
        CLUSTER_COLORS.getD (0 % CLUSTER_COLORS.length) "",
        CLUSTER_NAMES.getD (0 % CLUSTER_NAMES.length) ""⟩ :=
  ⟨Nat.zero_lt_one, spec_c9_catalog_indexing.2.2 [] ["a"] 1 0 Nat.zero_lt_one⟩

/-! ### Claim C10: findOptimalClusters never propagates an error -/

/-- Claim C10: the candidate scan collects scores for the longest prefix
of candidates on which `performClustering` succeeds and stops at the
first error (of any kind), and `findOptimalClusters` always returns
normally — either the `(2, [])` fallback or the reduce-maximum over the
collected scores. -/
theorem spec_c10_error_containment :
    (∀ (data : List CustomerRecord) (ks : List ℕ),
      scanScores data ks =
        (ks.takeWhile (fun k => isOkB (performClustering data k))).map
          (fun k => (k, scoreKOf data k))) ∧
    (∀ (data : List CustomerRecord) (maxK : ℕ),
      findOptimalClusters data maxK = (2, []) ∨
      ∃ s rest, scanScores data (candList data maxK) = s :: rest ∧
        findOptimalClusters data maxK = ((reduceBest s rest).1, s :: rest)) := by
  constructor
  · intro data ks
    induction ks with
    | nil => simp [scanScores]
    | cons k ks ih =>
        cases h : performClustering data k with
        | ok a => simp [scanScores, h, List.takeWhile_cons, isOkB, scoreKOf, ih]
        | error e => simp [scanScores, h, List.takeWhile_cons, isOkB]
  · intro data maxK
    cases h : scanScores data (candList data maxK) with
    | nil => left; simp [findOptimalClusters, h]
    | cons s rest =>
        right
        refine ⟨s, rest, rfl, ?_⟩
        simp [findOptimalClusters, h]

/-! ### K-Means shape lemmas -/

lemma newCentroids_length (data : List (List ℝ)) (a : List ℕ) (old : List (List ℝ)) :
    (newCentroids data a old).length = old.length := by
  simp [newCentroids]

lemma lloyd_shape (data : List (List ℝ)) :
    ∀ (fuel : ℕ) (cents : List (List ℝ)) (prev : Option (List ℕ)),
      ∃ c, lloyd data fuel cents prev = (assignRows c data, c) ∧ c.length = cents.length := by
  intro fuel
  induction fuel with
  | zero => intro cents prev; exact ⟨cents, rfl, rfl⟩
  | succ f ih =>
      intro cents prev
      by_cases h : prev = some (assignRows cents data)
      · exact ⟨cents, by simp [lloyd, h], rfl⟩
      · obtain ⟨c, hc, hl⟩ :=
          ih (newCentroids data (assignRows cents data) cents) (some (assignRows cents data))
        refine ⟨c, ?_, by rw [hl, newCentroids_length]⟩
        simp only [lloyd]
        rw [if_neg h]
        exact hc

lemma kmeansModel_shape (data : List (List ℝ)) (k seed : ℕ) :
    ∃ c, kmeansModel data k seed = (assignRows c data, c) ∧ c.length = min k data.length := by
  obtain ⟨c, hc, hl⟩ := lloyd_shape data 100 (data.take k) none
  exact ⟨c, hc, by rw [hl]; exact List.length_take k data⟩

/-! ### Euclidean distance lemmas -/

lemma euclidean_nonneg (a b : List ℝ) : 0 ≤ euclidean a b := Real.sqrt_nonneg _

lemma euclidean_eq_zero {a b : List ℝ} (hl : a.length = b.length)
    (h : euclidean a b = 0) : a = b := by
  have hsum : (a.zip b).foldl (fun s p => s + (p.1 - p.2) * (p.1 - p.2)) 0 =
      ((a.zip b).map (fun p => (p.1 - p.2) * (p.1 - p.2))).sum := by
    simpa using foldl_add_map (fun p : ℝ × ℝ => (p.1 - p.2) * (p.1 - p.2)) (a.zip b) 0
  have hnn : ∀ x ∈ (a.zip b).map (fun p : ℝ × ℝ => (p.1 - p.2) * (p.1 - p.2)), 0 ≤ x := by
    rintro x hx
    simp only [List.mem_map] at hx
    obtain ⟨p, _, rfl⟩ := hx
    exact mul_self_nonneg _
  have hle : (a.zip b).foldl (fun s p => s + (p.1 - p.2) * (p.1 - p.2)) 0 ≤ 0 :=
    Real.sqrt_eq_zero'.mp h
  have hz : ((a.zip b).map (fun p : ℝ × ℝ => (p.1 - p.2) * (p.1 - p.2))).sum = 0 := by
    rw [hsum] at hle
    exact le_antisymm hle (sum_nonneg_of_mem hnn)
  have hall := sum_eq_zero_mem_zero hnn hz
  refine List.ext_getElem hl ?_
  intro i h1 h2
  have hzl : i < (a.zip b).length := by
    rw [List.length_zip]
    exact lt_min h1 h2
  have hpair : (a.zip b)[i] = (a[i], b[i]) := List.getElem_zip
  have hmem : ((a[i] : ℝ) - b[i]) * ((a[i] : ℝ) - b[i]) ∈
      (a.zip b).map (fun p : ℝ × ℝ => (p.1 - p.2) * (p.1 - p.2)) := by
    refine List.mem_map.mpr ⟨(a[i], b[i]), ?_, rfl⟩
    rw [← hpair]
    exact List.getElem_mem hzl
  have := hall _ hmem
  have := mul_self_eq_zero.mp this
  linarith [sub_eq_zero.mp this]

/-! ### Mean distance lemmas -/

lemma meanDistTo_nonneg (x : List ℝ) (pts : List (List ℝ)) : 0 ≤ meanDistTo x pts := by
  unfold meanDistTo
  apply div_nonneg
  · rw [foldl_add_map, zero_add]
    refine sum_nonneg_of_mem ?_
    rintro y hy
    simp only [List.mem_map] at hy
    obtain ⟨p, _, rfl⟩ := hy
    exact euclidean_nonneg x p
  · positivity

lemma meanDistTo_eq_zero {x : List ℝ} {pts : List (List ℝ)} (hne : pts ≠ [])
    (h : meanDistTo x pts = 0) : ∀ p ∈ pts, euclidean x p = 0 := by
  unfold meanDistTo at h
  have hlen : ((pts.length : ℕ) : ℝ) ≠ 0 :=
    Nat.cast_ne_zero.mpr (fun hh => hne (List.length_eq_zero.mp hh))
  have hsum : pts.foldl (fun s p => s + euclidean x p) 0 = 0 := by
    rcases div_eq_zero_iff.mp h with h1 | h1
    · exact h1
    · exact absurd h1 hlen
  rw [foldl_add_map, zero_add] at hsum
  intro p hp
  refine sum_eq_zero_mem_zero ?_ hsum (euclidean x p) (List.mem_map.mpr ⟨p, hp, rfl⟩)
  rintro y hy
  simp only [List.mem_map] at hy
  obtain ⟨q, _, rfl⟩ := hy
  exact euclidean_nonneg x q

/-! ### Indexed-filter and getD lemmas -/

lemma idxFilter_mem {α : Type} {p : ℕ → Bool} :
    ∀ (l : List α) (s : ℕ) (x : α), x ∈ idxFilter p l s →
      ∃ j : ℕ, l[j]? = some x ∧ p (s + j) = true := by
  intro l
  induction l with
  | nil => intro s x hx; cases hx
  | cons y l ih =>
      intro s x hx
      simp only [idxFilter] at hx
      by_cases hp : p s
      · rw [if_pos hp] at hx
        rcases List.mem_cons.mp hx with h1 | h2
        · exact ⟨0, by simp [h1], by simpa using hp⟩
        · obtain ⟨j, hj, hpj⟩ := ih (s + 1) x h2
          refine ⟨j + 1, by simpa using hj, ?_⟩
          rw [show s + (j + 1) = s + 1 + j by omega]
          exact hpj
      · rw [if_neg hp] at hx
        obtain ⟨j, hj, hpj⟩ := ih (s + 1) x hx
        refine ⟨j + 1, by simpa using hj, ?_⟩
        rw [show s + (j + 1) = s + 1 + j by omega]
        exact hpj

lemma getD_of_getElem? {α : Type} {l : List α} {n : ℕ} {x : α} (d : α) (h : l[n]? = some x) :
    l.getD n d = x := by
  simp [List.getD_eq_getElem?_getD, h]

lemma mem_of_getElem? {α : Type} {l : List α} {n : ℕ} {x : α} (h : l[n]? = some x) : x ∈ l := by
  obtain ⟨hlt, heq⟩ := List.getElem?_eq_some.mp h
  exact heq ▸ List.getElem_mem hlt

/-! ### Silhouette well-definedness: the pipeline never produces NaN -/

lemma bVal_pos_aux (data : List (List ℝ)) (clusters : List ℕ) (x : List ℝ) :
    ∀ (cls : List ℕ) (b : Option ℝ),
      (∀ w : ℝ, b = some w → 0 < w) →
      (∀ cl ∈ cls, ¬(idxFilter (fun idx => clusters.getD idx 0 == cl) data 0).isEmpty = true →
        0 < meanDistTo x (idxFilter (fun idx => clusters.getD idx 0 == cl) data 0)) →
      ∀ w : ℝ,
        cls.foldl (fun b cl =>
          let pts := idxFilter (fun idx => clusters.getD idx 0 == cl) data 0
          if pts.isEmpty then b
          else some (match b with
            | none => meanDistTo x pts
            | some bb => min bb (meanDistTo x pts))) b = some w → 0 < w := by
  intro cls
  induction cls with
  | nil =>
      intro b hb _ w hw
      exact hb w (by simpa using hw)
  | cons cl cls ih =>
      intro b hb hcl w hw
      simp only [List.foldl_cons] at hw
      refine ih _ ?_ (fun cl' h1 h2 => hcl cl' (by simp [h1]) h2) w hw
      intro w' hw'
      by_cases he : (idxFilter (fun idx => clusters.getD idx 0 == cl) data 0).isEmpty
      · simp only [if_pos he] at hw'
        exact hb w' hw'
      · simp only [if_neg he] at hw'
        have hm : 0 < meanDistTo x (idxFilter (fun idx => clusters.getD idx 0 == cl) data 0) :=
          hcl cl (by simp) he
        cases hbb : b with
        | none =>
            rw [hbb] at hw'
            simp only [Option.some.injEq] at hw'
            rw [← hw']
            exact hm
        | some bb =>
            rw [hbb] at hw'
            simp only [Option.some.injEq] at hw'
            rw [← hw']
            exact lt_min (hb bb hbb) hm

lemma bVal_pos (data : List (List ℝ)) (clusters : List ℕ) (i c : ℕ)
    (hpos : ∀ cl, cl ≠ c →
      ¬(idxFilter (fun idx => clusters.getD idx 0 == cl) data 0).isEmpty = true →
      0 < meanDistTo (data.getD i []) (idxFilter (fun idx => clusters.getD idx 0 == cl) data 0)) :
    ∀ w, bVal data clusters i c = some w → 0 < w := by
  intro w hw
  unfold bVal at hw
  refine bVal_pos_aux data clusters (data.getD i []) _ none (by simp) ?_ w hw
  intro cl hcl hne
  refine hpos cl ?_ hne
  simp only [List.mem_filter] at hcl
  simpa using hcl.2

lemma cluster_meanDist_pos (data : List (List ℝ)) (f : List ℝ → ℕ) (d i : ℕ)
    (hlen : ∀ r ∈ data, r.length = d) (hi : i < data.length) :
    ∀ cl, cl ≠ (data.map f).getD i 0 →
      ¬(idxFilter (fun idx => (data.map f).getD idx 0 == cl) data 0).isEmpty = true →
      0 < meanDistTo (data.getD i [])
        (idxFilter (fun idx => (data.map f).getD idx 0 == cl) data 0) := by
  intro cl hne hnem
  have hptsne : idxFilter (fun idx => (data.map f).getD idx 0 == cl) data 0 ≠ [] := by
    simpa [List.isEmpty_iff] using hnem
  rcases lt_or_eq_of_le
      (meanDistTo_nonneg (data.getD i [])
        (idxFilter (fun idx => (data.map f).getD idx 0 == cl) data 0)) with h | h
  · exact h
  · exfalso
    have hz := meanDistTo_eq_zero hptsne h.symm
    obtain ⟨p, hp⟩ := List.exists_mem_of_ne_nil _ hptsne
    have hd0 := hz p hp
    obtain ⟨j, hj, hpj⟩ := idxFilter_mem data 0 p hp
    simp only [Nat.zero_add] at hpj
    have hjf : (data.map f)[j]? = some (f p) := by
      rw [List.getElem?_map, hj]
      rfl
    have hclj : (data.map f).getD j 0 = f p := getD_of_getElem? 0 hjf
    have hcl2 : f p = cl := by
      have := beq_iff_eq.mp hpj
      rw [hclj] at this
      exact this
    have hxi : data[i]? = some data[i] := List.getElem?_eq_getElem hi
    have hx : data.getD i [] = data[i] := getD_of_getElem? [] hxi
    have hxmem : data[i] ∈ data := List.getElem_mem hi
    have hpmem : p ∈ data := mem_of_getElem? hj
    have hxp : data.getD i [] = p := by
      refine euclidean_eq_zero ?_ hd0
      rw [hx, hlen data[i] hxmem, hlen p hpmem]
    have hif : (data.map f)[i]? = some (f data[i]) := by
      rw [List.getElem?_map, hxi]
      rfl
    have hci : (data.map f).getD i 0 = f data[i] := getD_of_getElem? 0 hif
    apply hne
    rw [← hcl2, hci, ← hx, hxp]

lemma silPoint_if_isSome (a b : ℝ) (hb : 0 < b) :
    (if max a b = 0 then none else some ((b - a) / max a b)).isSome = true := by
  rw [if_neg (ne_of_gt (lt_of_lt_of_le hb (le_max_right a b)))]
  rfl

lemma silPoint_isSome (data : List (List ℝ)) (f : List ℝ → ℕ) (d i : ℕ)
    (hlen : ∀ r ∈ data, r.length = d) (hi : i < data.length) :
    (silPoint data (data.map f) i).isSome = true := by
  simp only [silPoint]
  cases hb : bVal data (data.map f) i ((data.map f).getD i 0) with
  | none => simp [hb]
  | some b =>
      have hbpos : 0 < b :=
        bVal_pos data (data.map f) i _ (cluster_meanDist_pos data f d i hlen hi) b hb
      simp only [hb]
      exact silPoint_if_isSome _ b hbpos

lemma silTotal_isSome (data : List (List ℝ)) (clusters : List ℕ) :
    ∀ (l : List ℕ) (acc : Option ℝ), acc.isSome = true →
      (∀ i ∈ l, (silPoint data clusters i).isSome = true) →
      (l.foldl (fun acc i => match acc, silPoint data clusters i with
        | some t, some v => some (t + v)
        | _, _ => none) acc).isSome = true := by
  intro l
  induction l with
  | nil => intro acc ha _; simpa using ha
  | cons i l ih =>
      intro acc ha hall
      simp only [List.foldl_cons]
      refine ih _ ?_ (fun j hj => hall j (by simp [hj]))
      obtain ⟨t, ht⟩ := Option.isSome_iff_exists.mp ha
      obtain ⟨v, hv⟩ := Option.isSome_iff_exists.mp (hall i (by simp))
      simp [ht, hv]

lemma calcSil_isSome (data : List (List ℝ)) (f : List ℝ → ℕ) (d : ℕ)
    (hlen : ∀ r ∈ data, r.length = d) (hne : data ≠ []) :
    (calculateSilhouetteScore data (data.map f)).isSome = true := by
  simp only [calculateSilhouetteScore]
  have hn : data.length ≠ 0 := fun h => hne (List.length_eq_zero.mp h)
  rw [if_neg hn, Option.isSome_map']
  exact silTotal_isSome data (data.map f) (List.range data.length) (some 0) rfl
    (fun i hi => silPoint_isSome data f d i hlen (List.mem_range.mp hi))

lemma normRow_length (data : List CustomerRecord) (features : List String) :
    ∀ (vs : List ℝ) (i : ℕ), (normRow data features vs i).length = vs.length := by
  intro vs
  induction vs with
  | nil => intro i; rfl
  | cons v vs ih => intro i; simp [normRow, ih]

lemma normalized_row_length (data : List CustomerRecord) (excl : List String) :
    ∀ r ∈ (normalizeData data excl).1,
      r.length = (eligibleFeatures (data.headD []) excl).length := by
  intro r hr
  simp only [normalizeData, List.mem_map] at hr
  obtain ⟨row0, hrow0, heq⟩ := hr
  subst heq
  rw [normRow_length]
  simp only [nmValues, List.mem_map] at hrow0
  obtain ⟨rec, _, heq2⟩ := hrow0
  subst heq2
  simp

lemma performClustering_score_isSome {data : List CustomerRecord} {k : ℕ}
    {A : ClusterAnalysisS} (hk : 1 ≤ k) (h : performClustering data k = Except.ok A) :
    A.silhouetteScore.isSome = true := by
  by_cases hc : (normalizeData data ["id"]).1.length < k
  · rw [performClustering.eq_def, if_pos hc] at h
    cases h
  · rw [performClustering.eq_def, if_neg hc] at h
    injection h with hA
    rw [← hA]
    obtain ⟨c, hshape, _⟩ := kmeansModel_shape (normalizeData data ["id"]).1 k 0
    have hne : (normalizeData data ["id"]).1 ≠ [] := by
      intro hnil
      rw [hnil] at hc
      simp at hc
      omega
    show (calculateSilhouetteScore (normalizeData data ["id"]).1
      (kmeansModel (normalizeData data ["id"]).1 k 0).1).isSome = true
    rw [hshape]
    exact calcSil_isSome (normalizeData data ["id"]).1
      (fun row => argminIdx (c.map (fun cc => euclidean row cc)))
      (eligibleFeatures (data.headD []) ["id"]).length
      (normalized_row_length data ["id"]) hne

lemma scanScores_isSome (data : List CustomerRecord) :
    ∀ (ks : List ℕ), (∀ k ∈ ks, 1 ≤ k) →
      ∀ e ∈ scanScores data ks, e.2.isSome = true := by
  intro ks
  induction ks with
  | nil => intro _ e he; cases he
  | cons k ks ih =>
      intro hks e he
      cases hpc : performClustering data k with
      | ok a =>
          simp only [scanScores, hpc] at he
          rcases List.mem_cons.mp he with h1 | h2
          · rw [h1]
            exact performClustering_score_isSome (hks k (by simp)) hpc
          · exact ih (fun k' hk' => hks k' (by simp [hk'])) e h2
      | error e' =>
          simp only [scanScores, hpc] at he
          cases he

/-! ### The reduce-based selection: first maximum wins -/

lemma reduceBest_mem : ∀ (rest : List (ℕ × Option ℝ)) (best : ℕ × Option ℝ),
    reduceBest best rest ∈ best :: rest := by
  intro rest
  induction rest with
  | nil => intro best; simp [reduceBest]
  | cons s rest ih =>
      intro best
      simp only [reduceBest]
      by_cases h : jsGt s.2 best.2
      · rw [if_pos h]
        rcases List.mem_cons.mp (ih s) with h1 | h2
        · simp [h1]
        · simp [List.mem_cons.mpr (Or.inr h2)]
      · rw [if_neg h]
        rcases List.mem_cons.mp (ih best) with h1 | h2
        · simp [h1]
        · simp [List.mem_cons.mpr (Or.inr h2)]

lemma jsGt_of_isSome {x y : ℕ × Option ℝ} (hx : x.2.isSome = true) (hy : y.2.isSome = true) :
    jsGt x.2 y.2 = decide (scoreVal y < scoreVal x) := by
  obtain ⟨a, ha⟩ := Option.isSome_iff_exists.mp hx
  obtain ⟨b, hb⟩ := Option.isSome_iff_exists.mp hy
  simp [jsGt, ha, hb, scoreVal]

lemma reduceBest_first_max :
    ∀ (rest : List (ℕ × Option ℝ)) (best : ℕ × Option ℝ),
      best.2.isSome = true → (∀ e ∈ rest, e.2.isSome = true) →
      (reduceBest best rest = best ∧ ∀ e ∈ rest, scoreVal e ≤ scoreVal best) ∨
      (∃ p q, rest = p ++ reduceBest best rest :: q ∧
        scoreVal best < scoreVal (reduceBest best rest) ∧
        (∀ e ∈ p, scoreVal e < scoreVal (reduceBest best rest)) ∧
        (∀ e ∈ q, scoreVal e ≤ scoreVal (reduceBest best rest))) := by
  intro rest
  induction rest with
  | nil => intro best _ _; exact Or.inl ⟨rfl, by simp⟩
  | cons s rest ih =>
      intro best hbest hall
      have hs : s.2.isSome = true := hall s (by simp)
      have hrest : ∀ e ∈ rest, e.2.isSome = true := fun e he => hall e (by simp [he])
      simp only [reduceBest]
      rw [jsGt_of_isSome hs hbest]
      by_cases h : scoreVal best < scoreVal s
      · rw [if_pos (by simpa using h)]
        rcases ih s hs hrest with ⟨heq, hle⟩ | ⟨p, q, hsplit, hlt, hp, hq⟩
        · refine Or.inr ⟨[], rest, ?_, ?_, by simp, ?_⟩
          · rw [heq]; rfl
          · rw [heq]; exact h
          · rw [heq]; exact hle
        · refine Or.inr ⟨s :: p, q, ?_, lt_trans h hlt, ?_, hq⟩
          · rw [List.cons_append, ← hsplit]
          · intro e he
            rcases List.mem_cons.mp he with h1 | h2
            · rw [h1]; exact hlt
            · exact hp e h2
      · rw [if_neg (by simpa using h)]
        push_neg at h
        rcases ih best hbest hrest with ⟨heq, hle⟩ | ⟨p, q, hsplit, hlt, hp, hq⟩
        · refine Or.inl ⟨heq, ?_⟩
          intro e he
          rcases List.mem_cons.mp he with h1 | h2
          · rw [h1]; exact h
          · exact hle e h2
        · refine Or.inr ⟨s :: p, q, ?_, hlt, ?_, hq⟩
          · rw [List.cons_append, ← hsplit]
          · intro e he
            rcases List.mem_cons.mp he with h1 | h2
            · rw [h1]; exact lt_of_le_of_lt h hlt
            · exact hp e h2

/-! ### Claim C2/C8 groundwork: the scanned candidate list -/

lemma scanScores_fst (data : List CustomerRecord) :
    ∀ (n s : ℕ), (scanScores data (List.range' s n)).map Prod.fst =
      List.range' s ((scanScores data (List.range' s n)).length) := by
  intro n
  induction n with
  | zero => intro s; simp [scanScores]
  | succ n ih =>
      intro s
      have hr : List.range' s (n + 1) = s :: List.range' (s + 1) n := by simp [List.range']
      rw [hr]
      cases hpc : performClustering data s with
      | ok a =>
          simp only [scanScores, hpc, List.map_cons, List.length_cons]
          rw [ih (s + 1)]
          simp [List.range']
      | error e => simp [scanScores, hpc]

lemma scanScores_length_le (data : List CustomerRecord) :
    ∀ ks : List ℕ, (scanScores data ks).length ≤ ks.length := by
  intro ks
  induction ks with
  | nil => simp [scanScores]
  | cons k ks ih =>
      cases hpc : performClustering data k with
      | ok a =>
          simp only [scanScores, hpc, List.length_cons]
          exact Nat.succ_le_succ ih
      | error e => simp [scanScores, hpc]

/-- Amended C2: the candidate scan runs over k = 2, 3, … in ascending
order up to `min(maxK, n)` inclusive (the source loop bound is
`Math.min(maxK, data.length)`, not `n − 1`), so the recorded `k`s are a
consecutive ascending run starting at 2, and, when at least one candidate
succeeds, the returned k lies in `[2, min(maxK, n)]`. -/
theorem spec_c2_candidate_range : ∀ (data : List CustomerRecord) (maxK : ℕ),
    ((findOptimalClusters data maxK).2.map Prod.fst =
      List.range' 2 (findOptimalClusters data maxK).2.length) ∧
    ((findOptimalClusters data maxK).2 ≠ [] →
      2 ≤ (findOptimalClusters data maxK).1 ∧
      (findOptimalClusters data maxK).1 ≤ min maxK data.length) := by
  intro data maxK
  cases hs : scanScores data (candList data maxK) with
  | nil =>
      constructor
      · simp [findOptimalClusters, hs, List.range']
      · intro hne
        exact absurd (by simp [findOptimalClusters, hs]) hne
  | cons s rest =>
      have hfo : findOptimalClusters data maxK = ((reduceBest s rest).1, s :: rest) := by
        simp [findOptimalClusters, hs]
      have hfst : (s :: rest).map Prod.fst = List.range' 2 (s :: rest).length := by
        have h := scanScores_fst data (min maxK data.length - 1) 2
        rw [show List.range' 2 (min maxK data.length - 1) = candList data maxK from rfl, hs] at h
        exact h
      constructor
      · rw [hfo]
        exact hfst
      · intro _
        rw [hfo]
        have hmem : reduceBest s rest ∈ s :: rest := reduceBest_mem rest s
        have hfstmem : (reduceBest s rest).1 ∈ (s :: rest).map Prod.fst :=
          List.mem_map.mpr ⟨_, hmem, rfl⟩
        rw [hfst] at hfstmem
        have hb := List.mem_range'_1.mp hfstmem
        have hlen_le : (s :: rest).length ≤ min maxK data.length - 1 := by
          have h1 := scanScores_length_le data (candList data maxK)
          rw [hs] at h1
          simpa [candList, List.length_range'] using h1
        have hL : (s :: rest).length = rest.length + 1 := rfl
        exact ⟨hb.1, by omega⟩

/-- Claim C8: when no candidate succeeds the result is the `(2, [])`
fallback; otherwise the returned k is the first-encountered candidate
attaining the maximum recorded silhouette score (strictly above every
earlier score, at least every later one). -/
theorem spec_c8_selection : ∀ (data : List CustomerRecord) (maxK : ℕ),
    ((findOptimalClusters data maxK).2 = [] → findOptimalClusters data maxK = (2, [])) ∧
    ((findOptimalClusters data maxK).2 ≠ [] →
      ∃ p q v, (findOptimalClusters data maxK).2 =
          p ++ ((findOptimalClusters data maxK).1, some v) :: q ∧
        (∀ e ∈ p, ∀ w, e.2 = some w → w < v) ∧
        (∀ e ∈ q, ∀ w, e.2 = some w → w ≤ v)) := by
  intro data maxK
  cases hs : scanScores data (candList data maxK) with
  | nil =>
      constructor
      · intro _
        simp [findOptimalClusters, hs]
      · intro hne
        exact absurd (by simp [findOptimalClusters, hs]) hne
  | cons s rest =>
      have hfo : findOptimalClusters data maxK = ((reduceBest s rest).1, s :: rest) := by
        simp [findOptimalClusters, hs]
      constructor
      · intro hnil
        rw [hfo] at hnil
        simp at hnil
      · intro _
        have hall : ∀ e ∈ s :: rest, e.2.isSome = true := by
          intro e he
          refine scanScores_isSome data (candList data maxK) ?_ e (by rw [hs]; exact he)
          intro k hk
          simp only [candList] at hk
          have := (List.mem_range'_1.mp hk).1
          omega
        have hs2 : s.2.isSome = true := hall s (by simp)
        have hrest : ∀ e ∈ rest, e.2.isSome = true := fun e he => hall e (by simp [he])
        rcases reduceBest_first_max rest s hs2 hrest with ⟨heq, hle⟩ | ⟨p, q, hsplit, hlt, hp, hq⟩
        · obtain ⟨v, hv⟩ := Option.isSome_iff_exists.mp hs2
          have hsv : scoreVal s = v := by simp [scoreVal, hv]
          refine ⟨[], rest, v, ?_, by simp, ?_⟩
          · rw [hfo]
            simp only [List.nil_append, heq]
            rw [← hv]
          · intro e he w hw
            have h2 : scoreVal e = w := by simp [scoreVal, hw]
            rw [← h2, ← hsv]
            exact hle e he
        · have hrsome : (reduceBest s rest).2.isSome = true := hall _ (reduceBest_mem rest s)
          obtain ⟨v, hv⟩ := Option.isSome_iff_exists.mp hrsome
          have hrv : scoreVal (reduceBest s rest) = v := by simp [scoreVal, hv]
          refine ⟨s :: p, q, v, ?_, ?_, ?_⟩
          · rw [hfo]
            have hr : ((reduceBest s rest).1, some v) = reduceBest s rest := by rw [← hv]
            simp only [hr, List.cons_append]
            rw [← hsplit]
          · intro e he w hw
            have h2 : scoreVal e = w := by simp [scoreVal, hw]
            rcases List.mem_cons.mp he with h1 | h1
            · rw [← h2, ← hrv, h1]
              exact hlt
            · rw [← h2, ← hrv]
              exact hp e h1
          · intro e he w hw
            have h2 : scoreVal e = w := by simp [scoreVal, hw]
            rw [← h2, ← hrv]
            exact hq e he

/-! ### Concrete run on the two-record dataset -/

lemma d2_run : ∃ a, performClustering d2 2 = Except.ok a ∧
    findOptimalClusters d2 8 = (2, [(2, a.silhouetteScore)]) := by
  have hc : ¬ (normalizeData d2 ["id"]).1.length < 2 := by
    rw [normalizeData_fst_length]
    simp [d2]
  have hpc : ∃ a, performClustering d2 2 = Except.ok a := by
    rw [performClustering.eq_def, if_neg hc]
    exact ⟨_, rfl⟩
  obtain ⟨a, ha⟩ := hpc
  refine ⟨a, ha, ?_⟩
  have hcand : candList d2 8 = [2] := by decide
  have hscan : scanScores d2 (candList d2 8) = [(2, a.silhouetteScore)] := by
    rw [hcand]
    simp [scanScores, ha]
  simp [findOptimalClusters, hscan, reduceBest]

/-- Witness for C2's amended statement: on the two-record dataset the
scan succeeds, and the returned k obeys `2 ≤ k ≤ min(maxK, n)`. -/
theorem spec_c2_witness :
    (findOptimalClusters d2 8).2 ≠ [] ∧
    (2 ≤ (findOptimalClusters d2 8).1 ∧ (findOptimalClusters d2 8).1 ≤ min 8 d2.length) := by
  obtain ⟨a, _, hfo⟩ := d2_run
  have hne : (findOptimalClusters d2 8).2 ≠ [] := by
    rw [hfo]
    simp
  exact ⟨hne, (spec_c2_candidate_range d2 8).2 hne⟩

/-- Counterexample to C2 as stated: on a two-record dataset the candidate
k = 2 = n is scanned and returned, which lies outside the claimed range
`[2, min(maxK, n − 1)] = [2, 1]`. -/
theorem spec_c2_counterexample :
    (findOptimalClusters d2 8).2 ≠ [] ∧ (findOptimalClusters d2 8).1 = 2 ∧
    ¬ (findOptimalClusters d2 8).1 ≤ min 8 (d2.length - 1) := by
  obtain ⟨a, _, hfo⟩ := d2_run
  refine ⟨by rw [hfo]; simp, by rw [hfo], ?_⟩
  rw [hfo]
  show ¬ (2 : ℕ) ≤ min 8 (d2.length - 1)
  decide

/-- Witness for C8 at the two-record dataset: the scan is non-empty and
the selection conclusion holds there. -/
theorem spec_c8_witness :
    (findOptimalClusters d2 8).2 ≠ [] ∧
    (∃ p q v, (findOptimalClusters d2 8).2 =
        p ++ ((findOptimalClusters d2 8).1, some v) :: q ∧
      (∀ e ∈ p, ∀ w, e.2 = some w → w < v) ∧
      (∀ e ∈ q, ∀ w, e.2 = some w → w ≤ v)) := by
  obtain ⟨a, _, hfo⟩ := d2_run
  have hne : (findOptimalClusters d2 8).2 ≠ [] := by
    rw [hfo]
    simp
  exact ⟨hne, (spec_c8_selection d2 8).2 hne⟩

/-! ### Claim C4: the degenerate both-zero silhouette point is NaN -/

/-- Claim C4 failing input: two identical one-dimensional points assigned
to two different clusters give `a(0) = 0` (singleton cluster) and
`b(0) = 0` (the other cluster sits at distance 0), so the per-point
silhouette is the JS division `0 / 0 = NaN` (modelled `none`), which
poisons the total — the score is NaN, not the claimed 0 in [-1, 1]. -/
theorem spec_c4_nan_on_duplicates :
    calculateSilhouetteScore [[(0 : ℝ)], [0]] [0, 1] = none := by
  have he : euclidean [(0 : ℝ)] [0] = 0 := by
    simp [euclidean]
  have hb : bVal [[(0 : ℝ)], [0]] [0, 1] 0 0 = some 0 := by
    simp [bVal, jsUniq, idxFilter, meanDistTo, he]
  have hsp0 : silPoint [[(0 : ℝ)], [0]] [0, 1] 0 = none := by
    simp [silPoint, hb, idxFilter]
  have hrange : List.range 2 = [0, 1] := by decide
  simp [calculateSilhouetteScore, hrange, hsp0]

/-! ### Claim C5: concrete run with an empty cluster -/

lemma d3_features : eligibleFeatures (d3.headD []) ["id"] = ["a", "b"] := by decide

lemma d3_values : nmValues d3 ["a", "b"] = [[0, 5], [10, 5], [0, 5]] := rfl

lemma d3_colVals0 : colVals d3 ["a", "b"] 0 = [0, 10, 0] := rfl

lemma d3_colVals1 : colVals d3 ["a", "b"] 1 = [5, 5, 5] := rfl

lemma d3_min0 : colMin d3 ["a", "b"] 0 = 0 := by
  rw [colMin, d3_colVals0]
  simp only [listMin, List.foldl_cons, List.foldl_nil]
  norm_num [min_def]

lemma d3_max0 : colMax d3 ["a", "b"] 0 = 10 := by
  rw [colMax, d3_colVals0]
  simp only [listMax, List.foldl_cons, List.foldl_nil]
  norm_num [max_def]

lemma d3_min1 : colMin d3 ["a", "b"] 1 = 5 := by
  rw [colMin, d3_colVals1]
  simp only [listMin, List.foldl_cons, List.foldl_nil]
  norm_num [min_def]

lemma d3_max1 : colMax d3 ["a", "b"] 1 = 5 := by
  rw [colMax, d3_colVals1]
  simp only [listMax, List.foldl_cons, List.foldl_nil]
  norm_num [max_def]

lemma d3_normalized : (normalizeData d3 ["id"]).1 = [[0, 0], [1, 0], [0, 0]] := by
  simp only [normalizeData, d3_features]
  rw [d3_values]
  simp only [List.map_cons, List.map_nil, normRow]
  rw [d3_min0, d3_max0, d3_min1, d3_max1]
  norm_num

lemma eu00 : euclidean [(0 : ℝ), 0] [0, 0] = 0 := by
  simp [euclidean]

lemma eu01 : euclidean [(0 : ℝ), 0] [1, 0] = 1 := by
  norm_num [euclidean, Real.sqrt_one]

lemma eu10 : euclidean [(1 : ℝ), 0] [0, 0] = 1 := by
  norm_num [euclidean, Real.sqrt_one]

lemma eu11 : euclidean [(1 : ℝ), 0] [1, 0] = 0 := by
  simp [euclidean]

lemma d3_assign :
    assignRows [[(0 : ℝ), 0], [1, 0], [0, 0]] [[0, 0], [1, 0], [0, 0]] = [0, 1, 0] := by
  simp only [assignRows, List.map_cons, List.map_nil, eu00, eu01, eu10, eu11,
    argminIdx, argminAux]
  norm_num

lemma d3_newCentroids :
    newCentroids [[(0 : ℝ), 0], [1, 0], [0, 0]] [0, 1, 0] [[0, 0], [1, 0], [0, 0]] =
      [[0, 0], [1, 0], [0, 0]] := by
  have hr3 : List.range 3 = [0, 1, 2] := by decide
  simp [newCentroids, hr3, meanVec]

lemma lloyd_converged (data cents : List (List ℝ)) (a : List ℕ) (fuel : ℕ)
    (h1 : assignRows cents data = a) (h2 : newCentroids data a cents = cents) :
    lloyd data (fuel + 2) cents none = (a, cents) := by
  show lloyd data (fuel + 1 + 1) cents none = (a, cents)
  simp [lloyd, h1, h2]

lemma d3_kmeans :
    kmeansModel [[(0 : ℝ), 0], [1, 0], [0, 0]] 3 0 =
      ([0, 1, 0], [[0, 0], [1, 0], [0, 0]]) := by
  show lloyd [[(0 : ℝ), 0], [1, 0], [0, 0]] 100
      (([[(0 : ℝ), 0], [1, 0], [0, 0]] : List (List ℝ)).take 3) none = _
  rw [show (([[(0 : ℝ), 0], [1, 0], [0, 0]] : List (List ℝ)).take 3) =
      [[(0 : ℝ), 0], [1, 0], [0, 0]] from rfl,
    show (100 : ℕ) = 98 + 2 by norm_num]
  exact lloyd_converged _ _ _ 98 d3_assign d3_newCentroids

/-- Claim C5 at the failing input: `performClustering` on the 3-record
dataset `d3` with k = 3 succeeds and produces summaries whose ids are
0, 1, 2 in order and whose counts 2, 1, 0 sum to n = 3 — but the empty
cluster 2 gets `NaN` (modelled `none`) as its per-feature mean, from the
JS division `0 / 0`, not the claimed defined value 0. -/
theorem spec_c5_empty_cluster_nan :
    ∃ A, performClustering d3 3 = Except.ok A ∧
      A.clusterSummaries.map (fun s => s.clusterId) = [0, 1, 2] ∧
      A.clusterSummaries.map (fun s => s.count) = [2, 1, 0] ∧
      (A.clusterSummaries.map (fun s => s.count)).sum = d3.length ∧
      A.clusterSummaries.get? 2 = some
        ⟨2, 0, [("a", none), ("b", none)], "#f59e0b", "Frequent Buyers"⟩ := by
  have hne : ¬ (normalizeData d3 ["id"]).1.length < 3 := by
    rw [normalizeData_fst_length]
    simp [d3]
  have hfeat2 : (normalizeData d3 ["id"]).2 = ["a", "b"] := d3_features
  have hr3 : List.range 3 = [0, 1, 2] := by decide
  rw [performClustering.eq_def, if_neg hne]
  simp only [d3_normalized, hfeat2, d3_kmeans]
  refine ⟨_, rfl, ?_, ?_, ?_, ?_⟩
  · simp [buildSummaries, hr3]
  · simp [buildSummaries, hr3, d3, dRec]
  · simp [buildSummaries, hr3, d3, dRec]
  · simp [buildSummaries, hr3, d3, dRec, getVal, CLUSTER_COLORS, CLUSTER_NAMES]

end
